import Mathlib

/-!
Verification development for the OpenCode OpenAI-compatible proxy plugin
(`openai-server.ts`).  The TypeScript source is shallowly embedded: each
source function becomes a Lean definition over explicit data types, JS
untyped values are restricted to the shapes the routes actually handle
(absent / non-string fields become `Option`, falsy checks are spelled
out), and the route handler becomes a pure function from the request body
parse result together with the backend's behaviour to the produced HTTP
response or SSE write sequence.  Nondeterministic environment inputs
(`Math.random` ids, `Date.now` timestamps) are threaded as explicit
parameters.
-/

/-! ## String utilities

JS `String.prototype.includes` and `String.prototype.split(" ")` are
modelled on character lists. -/

/-- Model of a prefix test on character lists: `listIsPrefixOf n l` is true
iff `n` is an initial segment of `l`. -/
def listIsPrefixOf : List Char → List Char → Bool
  | [], _ => true
  | _ :: _, [] => false
  | a :: as, b :: bs => a == b && listIsPrefixOf as bs

/-- Model of JS `haystack.includes(needle)` on character lists: true iff
`needle` occurs contiguously inside `haystack`. -/
def containsSub (needle : List Char) : List Char → Bool
  | [] => listIsPrefixOf needle []
  | c :: rest => listIsPrefixOf needle (c :: rest) || containsSub needle rest

/-- Model of JS `hay.includes (needle)` on `String`. -/
def strIncludes (hay needle : String) : Bool :=
  containsSub needle.toList hay.toList

/-- Model of JS `s.split(c)` for a single-character separator, on character
lists: splits at every occurrence of `c`, keeping empty segments, and
yields `[[]]` on the empty string. -/
def jsSplitChar (c : Char) : List Char → List (List Char)
  | [] => [[]]
  | a :: rest =>
    if a = c then [] :: jsSplitChar c rest
    else
      match jsSplitChar c rest with
      | [] => [[a]]
      | seg :: segs => (a :: seg) :: segs

/-- Inverse of splitting: interleave the separator back between segments. -/
def joinSep (c : Char) : List (List Char) → List Char
  | [] => []
  | [seg] => seg
  | seg :: segs => seg ++ c :: joinSep c segs

/-- Inbound user-content part object. `type := none` models an absent or
otherwise falsy `type` field together with the empty string case spelled
out by the code guard; `text := none` models a `text` field that is absent
or not a string; `image_url` is an opaque passthrough payload. -/
structure OaPartIn where
  type : Option String
  text : Option String
  image_url : Option String
deriving Repr, DecidableEq

/-- Content field of an inbound message: a string, an array of part-like
values (`none` models a falsy element), or anything else (`other` covers
absent, null, numbers, objects — every shape the code treats alike). -/
inductive ContentIn where
  | str (s : String)
  | arr (ps : List (Option OaPartIn))
  | other
deriving Repr, DecidableEq

/-- Inbound message object. `role := none` models an absent/falsy role
(the code guard `!m.role` also catches the empty string, modelled as
`some ""`). `tool_calls` is `some l` only when the field is an array;
`tool_call_id` is an opaque passthrough. An entirely falsy array element
is modelled as `none` at the use site. -/
structure OaMsgIn where
  role : Option String
  content : ContentIn
  tool_calls : Option (List String)
  tool_call_id : Option String
deriving Repr, DecidableEq

/-- Normalized user-content part, as pushed by the normalizer. -/
inductive NormPart where
  | text (t : String)
  | image (image_url : Option String)
deriving Repr, DecidableEq

/-- Normalized user content: either a plain string or a part array. -/
inductive NormContent where
  | str (s : String)
  | parts (ps : List NormPart)
deriving Repr, DecidableEq

/-- Normalized message, tagged by role. -/
inductive NormMsg where
  | system (content : String)
  | user (content : NormContent)
  | assistant (content : Option String) (tool_calls : Option (List String))
  | tool (tool_call_id : Option String) (content : ContentIn)
deriving Repr, DecidableEq

/-- Inner part loop of `fromOaRequest` for a user message with array
content (source lines 24–29): falsy elements and falsy `type` fields are
skipped; a `text` part is kept only when its `text` field is a string; an
`image_url` part passes its payload through. -/
def normParts : List (Option OaPartIn) → List NormPart
  | [] => []
  | po :: rest =>
    match po with
    | none => normParts rest
    | some p =>
      match p.type with
      | none => normParts rest
      | some t =>
        if t = "" then normParts rest
        else
          ((if t = "text" then
              match p.text with
              | some s => [NormPart.text s]
              | none => []
            else []) ++
           (if t = "image_url" then [NormPart.image p.image_url] else [])) ++
          normParts rest

/-- Per-message step of the `fromOaRequest` loop (source lines 15–46),
returning the zero or one messages pushed onto `msgsOut`. -/
def normMsg (mo : Option OaMsgIn) : List NormMsg :=
  match mo with
  | none => []
  | some m =>
    match m.role with
    | none => []
    | some r =>
      if r = "" then []
      else if r = "system" then
        match m.content with
        | ContentIn.str s => if 0 < s.length then [NormMsg.system s] else []
        | _ => []
      else if r = "user" then
        match m.content with
        | ContentIn.str s => [NormMsg.user (NormContent.str s)]
        | ContentIn.arr ps =>
          match normParts ps with
          | [NormPart.text t] => [NormMsg.user (NormContent.str t)]
          | [] => []
          | parts => [NormMsg.user (NormContent.parts parts)]
        | ContentIn.other => []
      else if r = "assistant" then
        [NormMsg.assistant
          (match m.content with
           | ContentIn.str s => some s
           | _ => none)
          m.tool_calls]
      else if r = "tool" then
        [NormMsg.tool m.tool_call_id m.content]
      else []

/-- Whole-list normalization: the `for` loop over `msgsIn` accumulating
`msgsOut`. -/
def normMessages (msgs : List (Option OaMsgIn)) : List NormMsg :=
  msgs.flatMap normMsg

/-- Inbound request body restricted to an object shape (`fromOaRequest`
returns non-objects unchanged; all routes below reach it with an object).
`messages := none` models an absent or non-array field; `stream` holds the
truthiness of `body.stream`.  Scalar passthrough fields (`max_tokens`,
`temperature`, `top_p`, `stop`, `tools`, `tool_choice`) are copied
verbatim by the source and inspected by no claim, so they are not
modelled. -/
structure OaBody where
  model : Option String
  messages : Option (List (Option OaMsgIn))
  stream : Bool
deriving Repr, DecidableEq

/-- The empty JS object produced by the JSON-parse fallback
`.catch(() => ({}))`: every field absent, `!!undefined = false`. -/
def emptyOaBody : OaBody :=
  { model := none, messages := none, stream := false }

/-- Normalized chat request (`fromOaRequest`'s return object, restricted
to the fields the handler reads). -/
structure ChatRequest where
  model : Option String
  messages : List NormMsg
  stream : Bool
deriving Repr, DecidableEq

/-- `fromOaRequest` (source lines 11–58) on an object body. -/
def fromOaRequest (body : OaBody) : ChatRequest :=
  { model := body.model
    messages := normMessages (body.messages.getD [])
    stream := body.stream }

/-! ## Response translator (`toOaResponse`) and error envelope -/

/-- Part of a backend reply. `type := none` models an absent `type` (the
translator only compares it against `"text"`); `text := none` models an
absent `text` field (the source substitutes `""` via `?? ""`). -/
structure RespPart where
  type : Option String
  text : Option String
deriving Repr, DecidableEq

/-- Backend one-shot reply object. An absent or non-array `parts` field
collapses to `[]` in the translator (`Array.isArray` guard), so `parts`
is modelled directly as a list; `model := none` models an absent model
field. Elements of `parts` are proper part objects — a null element would
make the source's `p.type` access throw, a shape the backend contract
never produces. -/
structure Reply where
  parts : List RespPart
  model : Option String
deriving Repr, DecidableEq

/-- Concatenation of the reply's text parts (source lines 63–66):
`parts.filter(type === "text").map(text ?? "").join("")`. -/
def concatText (parts : List RespPart) : String :=
  String.join ((parts.filter (fun p => p.type == some "text")).map
    (fun p => p.text.getD ""))

/-- Assistant message inside a completion choice. -/
structure OaMessage where
  role : String
  content : String
deriving Repr, DecidableEq

/-- One completion choice. -/
structure OaChoice where
  index : Nat
  message : OaMessage
  finish_reason : Option String
deriving Repr, DecidableEq

/-- OpenAI `chat.completion` object (`toOaResponse`'s result shape). -/
structure OaCompletion where
  id : String
  object : String
  created : Nat
  model : String
  choices : List OaChoice
deriving Repr, DecidableEq

/-- `toOaResponse` (source lines 60–84) on a reply object, with the
`Math.random`-derived id and `Date.now`-derived timestamp passed in as
explicit parameters `freshId` and `now`. -/
def toOaResponse (freshId : String) (now : Nat) (resp : Reply) : OaCompletion :=
  { id := freshId
    object := "chat.completion"
    created := now
    model := resp.model.getD "opencode"
    choices :=
      [{ index := 0
         message := { role := "assistant", content := concatText resp.parts }
         finish_reason := some "stop" }] }

/-- OpenAI-compatible error envelope (`createErrorResponse`'s result;
`param` and `code` are always null). -/
structure ErrorEnvelope where
  message : String
  type : String
  param : Option String
  code : Option String
deriving Repr, DecidableEq

/-- `createErrorResponse` (source lines 115–124); the `statusCode`
argument is accepted and ignored by the body builder, exactly as in the
source. -/
def createErrorResponse (statusCode : Nat) (message : String)
    (type : String := "server_error") : ErrorEnvelope :=
  { message := message, type := type, param := none, code := none }

/-! ## Stream translator -/

/-- Delta carried by a streaming choice. -/
structure OaDelta where
  content : String
deriving Repr, DecidableEq

/-- One streaming choice. -/
structure OaChunkChoice where
  index : Nat
  delta : OaDelta
  finish_reason : Option String
deriving Repr, DecidableEq

/-- OpenAI `chat.completion.chunk` object. -/
structure OaChunk where
  id : String
  object : String
  created : Nat
  model : String
  choices : List OaChunkChoice
deriving Repr, DecidableEq

/-- `toOaStreamChunk` (source lines 87–103), with the random id and
timestamp as explicit parameters; `deltaText` is the source's text
argument. -/
def toOaStreamChunk (freshId : String) (now : Nat) (deltaText : String)
    (model : String) : OaChunk :=
  { id := freshId
    object := "chat.completion.chunk"
    created := now
    model := model
    choices :=
      [{ index := 0
         delta := { content := deltaText }
         finish_reason := none }] }

/-- Part of a backend stream chunk: the loop reads only `type` and the
truthiness of `text`, so both are modelled as options. -/
structure StreamPart where
  type : Option String
  text : Option String
deriving Repr, DecidableEq

/-- Backend stream chunk object; `parts := none` models an absent/falsy
`parts` field (the `chunk.parts` truthiness guard). -/
structure ChunkRec where
  parts : Option (List StreamPart)
deriving Repr, DecidableEq

/-- One SSE write performed by the streaming handler, identified by its
claim-relevant payload: `data m c` is `data: <JSON of a chat.completion.chunk
with model m and delta.content c>` (the chunk additionally carries a fresh
random id and a timestamp, modelled by `toOaStreamChunk` above and
irrelevant to every claim); `errorData` is the in-band error frame of
source lines 233–243; `done` is the terminal `data: [DONE]` sentinel. -/
inductive SSEWrite where
  | data (model : String) (content : String)
  | errorData (message : String) (type : String)
  | done
deriving Repr, DecidableEq

/-- Behaviour of the backend message call observed by the streaming
handler: it may throw before yielding anything (`fail` — covers session
creation and call initiation failures), return an async-iterable that
yields `cs` and then either ends or throws (`iter`), or return a
non-iterable one-shot value (`oneshot`, `none` for a falsy value). A
falsy element of the chunk sequence is `none`. -/
inductive StreamBackend where
  | fail (errorMsg : String)
  | iter (cs : List (Option ChunkRec)) (err : Option String)
  | oneshot (msg : Option Reply)
deriving Repr, DecidableEq

/-- SSE writes produced for one stream chunk (source lines 202–211): one
`data` frame per part with `type === "text"` and truthy (non-empty string)
`text`, in part order. -/
def chunkWrites (model : String) (co : Option ChunkRec) : List SSEWrite :=
  match co with
  | none => []
  | some c =>
    match c.parts with
    | none => []
    | some ps =>
      ps.flatMap (fun p =>
        if p.type == some "text" then
          match p.text with
          | some t => if t = "" then [] else [SSEWrite.data model t]
          | none => []
        else [])

/-- The in-band SSE error frame (source lines 230–243): a message whose
text contains `"timeout"` is reported as a provider timeout, anything
else verbatim as a server error. -/
def errWrite (errorMsg : String) : SSEWrite :=
  SSEWrite.errorData
    (if strIncludes errorMsg "timeout" then "provider timeout" else errorMsg)
    (if strIncludes errorMsg "timeout" then "provider_error" else "server_error")

/-- Complete write sequence of the streaming handler body (source lines
172–245) as a function of the backend behaviour and the resolved model
string (`parsed.model ?? "opencode"`). -/
def streamingWrites (sb : StreamBackend) (model : String) : List SSEWrite :=
  match sb with
  | StreamBackend.fail e => [errWrite e, SSEWrite.done]
  | StreamBackend.iter cs err =>
    (cs.flatMap (chunkWrites model)) ++
      (match err with
       | none => [SSEWrite.done]
       | some e => [errWrite e, SSEWrite.done])
  | StreamBackend.oneshot m =>
    let parts := match m with
      | some r => r.parts
      | none => []
    let text := concatText parts
    (if text = "" then [] else [SSEWrite.data model text]) ++ [SSEWrite.done]

/-! ## Authentication gate -/

/-- `validateApiKey` (source lines 106–112). `apiKey := none` models an
unset environment variable; the source's `!apiKey` guard also treats the
empty string as unconfigured, and `!authHeader` likewise catches an empty
header string. JS `authHeader.split(" ")` is modelled by `jsSplitChar` on
the character list. -/
def validateApiKey (authHeader : Option String) (apiKey : Option String) : Bool :=
  match apiKey with
  | none => true
  | some key =>
    if key = "" then true
    else
      match authHeader with
      | none => false
      | some h =>
        if h = "" then false
        else
          let parts := jsSplitChar ' ' h.toList
          parts.length == 2 && parts.headD [] == "Bearer".toList &&
            parts.getD 1 [] == key.toList

/-- Outcome of the pre-route middleware: either the request proceeds to
the route (`pass`) or it is answered immediately with a status and error
envelope. -/
inductive GateResult where
  | pass
  | reject (status : Nat) (body : ErrorEnvelope)
deriving Repr, DecidableEq

/-- Auth middleware (source lines 135–149): `/openapi.json` is exempt;
otherwise a failed key check answers 401 with an authentication error
envelope. -/
def authMiddleware (path : String) (authHeader : Option String)
    (apiKey : Option String) : GateResult :=
  if path = "/openapi.json" then GateResult.pass
  else if validateApiKey authHeader apiKey then GateResult.pass
  else GateResult.reject 401
    (createErrorResponse 401 "Unauthorized" "authentication_error")

/-! ## Chat-completions route handler -/

/-- Backend message part sent to the session (`{type:"text", text}`). -/
structure BackendPart where
  type : String
  text : String
deriving Repr, DecidableEq

/-- Projection of the normalized messages to backend parts (source lines
178–188 and 253–262, which are identical): only user-role content is
forwarded, string content as one text part, array content keeping exactly
its text parts. -/
def buildMessageParts (msgs : List NormMsg) : List BackendPart :=
  msgs.flatMap (fun m =>
    match m with
    | NormMsg.user (NormContent.str s) => [{ type := "text", text := s }]
    | NormMsg.user (NormContent.parts ps) =>
      ps.flatMap (fun p =>
        match p with
        | NormPart.text t => [{ type := "text", text := t }]
        | NormPart.image _ => [])
    | _ => [])

/-- Argument object passed to `client.session.message`. The client SDK is
an external collaborator; its call options may carry an abort signal that
cancels the in-flight request when the associated controller aborts.
Modelled from the spec: the Backend Invoker contract (§4.2, §5) requires
deadline expiry to cancel the in-flight backend call, which is only
possible if the call is wired to the aborting controller — `signal` records
that wiring (`some ()` = the handler's abort controller's signal is passed,
`none` = no signal passed). -/
structure MessageCallArgs where
  parts : List BackendPart
  stream : Option Bool
  signal : Option Unit
deriving Repr, DecidableEq

/-- The argument object built by the streaming path (source lines
195–198): `{ parts: messageParts, stream: true }` — no abort signal. -/
def streamingMessageArgs (parsed : ChatRequest) : MessageCallArgs :=
  { parts := buildMessageParts parsed.messages
    stream := some true
    signal := none }

/-- The argument object built by the non-streaming path (source line 270):
`{ parts: messageParts }` — no stream flag, no abort signal. -/
def nonStreamingMessageArgs (parsed : ChatRequest) : MessageCallArgs :=
  { parts := buildMessageParts parsed.messages
    stream := none
    signal := none }

/-- Result of parsing the request body: `invalidJson` models a body that
`c.req.json()` rejects; `json b` a successfully parsed object body. -/
inductive ReqBody where
  | invalidJson
  | json (b : OaBody)
deriving Repr, DecidableEq

/-- Behaviour of the backend on the non-streaming path: session creation
throws, the message call throws, or the message call returns a reply. -/
inductive NonStreamBackend where
  | createFail (errorMsg : String)
  | msgFail (errorMsg : String)
  | ok (reply : Reply)
deriving Repr, DecidableEq

/-- JSON body of a non-streaming route response. -/
inductive JsonOut where
  | completion (c : OaCompletion)
  | error (e : ErrorEnvelope)
deriving Repr, DecidableEq

/-- Full response of the chat-completions route: a JSON response with a
status, or an SSE stream given by its write sequence. -/
inductive ChatResponse where
  | json (status : Nat) (body : JsonOut)
  | sse (writes : List SSEWrite)
deriving Repr, DecidableEq

/-- The `POST /v1/chat/completions` handler (source lines 161–295) as a
function of the body parse result and the backend behaviour on each path.
`.catch(() => ({}))` turns a JSON parse failure into the empty object.
On the streaming path every failure (session creation, call initiation,
mid-stream) is handled inside the stream callback (`StreamBackend`); on
the non-streaming path a session-creation failure escapes the inner
`try` and is answered by the outer catch with 400/`invalid_request_error`,
while a message-call failure is classified by the `"timeout"` substring
test (504/`provider_error` vs 500/`server_error`). -/
def chatCompletions (freshId : String) (now : Nat) (rb : ReqBody)
    (nsb : NonStreamBackend) (sb : StreamBackend) : ChatResponse :=
  let body := match rb with
    | ReqBody.invalidJson => emptyOaBody
    | ReqBody.json b => b
  let parsed := fromOaRequest body
  if parsed.stream then
    ChatResponse.sse (streamingWrites sb (parsed.model.getD "opencode"))
  else
    match nsb with
    | NonStreamBackend.createFail e =>
      ChatResponse.json 400 (JsonOut.error (createErrorResponse 400 e "invalid_request_error"))
    | NonStreamBackend.msgFail e =>
      let statusCode := if strIncludes e "timeout" then 504 else 500
      let errorType := if strIncludes e "timeout" then "provider_error" else "server_error"
      ChatResponse.json statusCode (JsonOut.error (createErrorResponse statusCode e errorType))
    | NonStreamBackend.ok reply =>
      ChatResponse.json 200 (JsonOut.completion (toOaResponse freshId now reply))

/-- Status of a route response, when it is a plain JSON response. -/
def statusOf : ChatResponse → Option Nat
  | ChatResponse.json s _ => some s
  | ChatResponse.sse _ => none

/-! ## Claim-side characterizations and bridging lemmas -/

/-- Claim-side formulation of the text concatenation: walk the parts in
order, appending the text of each `type = "text"` part with no separator
(absent text contributes the empty string). -/
def textConcatSpec : List RespPart → String
  | [] => ""
  | p :: ps =>
    (if p.type = some "text" then p.text.getD "" else "") ++ textConcatSpec ps

/-- Claim-side qualifying condition for a stream part: declared type
`"text"` and a non-empty string text field. -/
def qualifiesPart (p : StreamPart) : Bool :=
  p.type == some "text" && p.text.getD "" != ""

/-- Claim-side expected deltas of one chunk: the texts of its qualifying
parts, in part order. -/
def expectedChunkDeltas (co : Option ChunkRec) : List String :=
  match co with
  | none => []
  | some c =>
    ((c.parts.getD []).filter qualifiesPart).map (fun p => p.text.getD "")

/-- Claim-side expected delta sequence: the texts of the qualifying parts
of every chunk, in chunk order then part order. -/
def expectedDeltas (cs : List (Option ChunkRec)) : List String :=
  cs.flatMap expectedChunkDeltas

/-- Classification of a write by its constructor. -/
def isDataWrite : SSEWrite → Bool
  | SSEWrite.data _ _ => true
  | _ => false

/-- True exactly for the in-band error frame. -/
def isErrorWrite : SSEWrite → Bool
  | SSEWrite.errorData _ _ => true
  | _ => false

/-- True exactly for the terminal `[DONE]` sentinel. -/
def isDoneWrite : SSEWrite → Bool
  | SSEWrite.done => true
  | _ => false

/-- Claim-side classification of the backend stream behaviour: did a
failure occur while obtaining or consuming the sequence? -/
def sbFails : StreamBackend → Bool
  | StreamBackend.fail _ => true
  | StreamBackend.iter _ (some _) => true
  | _ => false

/-- Per-element form of the part loop: the zero or one normalized parts
contributed by a single array element. -/
def partNorm (po : Option OaPartIn) : List NormPart :=
  match po with
  | none => []
  | some p =>
    match p.type with
    | none => []
    | some t =>
      if t = "" then []
      else
        (if t = "text" then
           match p.text with
           | some s => [NormPart.text s]
           | none => []
         else []) ++
        (if t = "image_url" then [NormPart.image p.image_url] else [])

/-- Claim-side well-formedness of an inbound array element: an object
with type `"text"` and a string `text` field, or with type `"image_url"`. -/
def wellFormedPart : Option OaPartIn → Bool
  | none => false
  | some p => (p.type == some "text" && p.text.isSome) || p.type == some "image_url"

/-- Source-side guard of the system-role branch (line 18): the content is
kept only when it is a string of positive length. -/
def keepsSystemContent : ContentIn → Bool
  | ContentIn.str s => decide (0 < s.length)
  | _ => false

/-! ## Lemmas and claim theorems -/

theorem listIsPrefixOf_iff (n l : List Char) :
    listIsPrefixOf n l = true ↔ ∃ r, l = n ++ r := by
  induction n generalizing l with
  | nil => simp [listIsPrefixOf]
  | cons a as ih =>
    cases l with
    | nil =>
      simp [listIsPrefixOf]
    | cons b bs =>
      simp only [listIsPrefixOf, Bool.and_eq_true, beq_iff_eq, ih,
        List.cons_append, List.cons.injEq]
      constructor
      · rintro ⟨rfl, r, rfl⟩
        exact ⟨r, rfl, rfl⟩
      · rintro ⟨r, rfl, rfl⟩
        exact ⟨rfl, r, rfl⟩

theorem containsSub_iff (n l : List Char) :
    containsSub n l = true ↔ ∃ p q, l = p ++ n ++ q := by
  induction l with
  | nil =>
    simp only [containsSub, listIsPrefixOf_iff]
    constructor
    · rintro ⟨r, hr⟩
      exact ⟨[], r, by simpa using hr⟩
    · rintro ⟨p, q, h⟩
      have hp : p = [] := by
        cases p with
        | nil => rfl
        | cons x xs => simp at h
      subst hp
      exact ⟨q, by simpa using h⟩
  | cons c rest ih =>
    simp only [containsSub, Bool.or_eq_true, listIsPrefixOf_iff, ih]
    constructor
    · rintro (⟨r, hr⟩ | ⟨p, q, hpq⟩)
      · exact ⟨[], r, by simpa using hr⟩
      · exact ⟨c :: p, q, by simp [hpq]⟩
    · rintro ⟨p, q, hpq⟩
      cases p with
      | nil =>
        exact Or.inl ⟨q, by simpa using hpq⟩
      | cons x xs =>
        simp only [List.cons_append, List.cons.injEq] at hpq
        exact Or.inr ⟨xs, q, hpq.2⟩

/-- Substring containment for `String`, as the claims phrase it:
`needle.toList` occurs contiguously inside `hay.toList`. -/
theorem strIncludes_iff (hay needle : String) :
    strIncludes hay needle = true ↔
      ∃ p q, hay.toList = p ++ needle.toList ++ q :=
  containsSub_iff needle.toList hay.toList

/-! ## JS `split(" ")` and its join inverse -/

theorem jsSplitChar_ne_nil (c : Char) (l : List Char) :
    jsSplitChar c l ≠ [] := by
  cases l with
  | nil => simp [jsSplitChar]
  | cons a rest =>
    simp only [jsSplitChar]
    split
    · simp
    · split
      · simp
      · simp

theorem joinSep_jsSplitChar (c : Char) (l : List Char) :
    joinSep c (jsSplitChar c l) = l := by
  induction l with
  | nil => simp [jsSplitChar, joinSep]
  | cons a rest ih =>
    simp only [jsSplitChar]
    split
    · rename_i ha
      subst ha
      cases hsplit : jsSplitChar a rest with
      | nil => exact absurd hsplit (jsSplitChar_ne_nil a rest)
      | cons seg segs =>
        rw [hsplit] at ih
        simp [joinSep, ih]
    · rename_i ha
      cases hsplit : jsSplitChar c rest with
      | nil => exact absurd hsplit (jsSplitChar_ne_nil c rest)
      | cons seg segs =>
        rw [hsplit] at ih
        cases segs with
        | nil => simpa [joinSep] using ih
        | cons seg2 segs2 =>
          simp only [joinSep] at ih ⊢
          simp [ih]

/-! ## Request normalizer data model (`fromOaRequest`)

The inbound body is untrusted JSON.  Only the shapes the normalizer
actually inspects are modelled; JS falsy checks on fields become explicit
`Option` / empty-string cases.  Opaque passthrough payloads (tool calls,
image urls, tool message content) are carried as `String` placeholders
since the code never inspects them. -/

theorem concatText_nil : concatText [] = "" := rfl

theorem concatText_cons (p : RespPart) (ps : List RespPart) :
    concatText (p :: ps) =
      (if p.type = some "text" then p.text.getD "" else "") ++ concatText ps := by
  apply String.ext
  simp only [concatText, List.filter_cons]
  by_cases hp : p.type = some "text"
  · simp [hp]
  · simp [hp]

theorem concatText_eq_spec (ps : List RespPart) :
    concatText ps = textConcatSpec ps := by
  induction ps with
  | nil => rfl
  | cons p ps ih => rw [concatText_cons, textConcatSpec, ih]

theorem chunkWrites_eq_expected (model : String) (co : Option ChunkRec) :
    chunkWrites model co = (expectedChunkDeltas co).map (SSEWrite.data model) := by
  cases co with
  | none => rfl
  | some c =>
    cases hps : c.parts with
    | none => simp [chunkWrites, expectedChunkDeltas, hps]
    | some ps =>
      simp only [chunkWrites, expectedChunkDeltas, hps, Option.getD_some]
      clear hps
      induction ps with
      | nil => rfl
      | cons p rest ih =>
        rw [List.flatMap_cons, ih, List.filter_cons]
        by_cases ht : p.type == some "text"
        · cases hx : p.text with
          | none => simp [qualifiesPart, ht, hx]
          | some t =>
            by_cases he : t = ""
            · simp [qualifiesPart, ht, hx, he]
            · simp [qualifiesPart, ht, hx, he]
        · simp [qualifiesPart, ht]

theorem flatMap_chunkWrites (model : String) (cs : List (Option ChunkRec)) :
    cs.flatMap (chunkWrites model) =
      (expectedDeltas cs).map (SSEWrite.data model) := by
  induction cs with
  | nil => rfl
  | cons co rest ih =>
    simp only [List.flatMap_cons, expectedDeltas, ih, chunkWrites_eq_expected,
      List.map_append]

theorem chunkWrites_data (model : String) (co : Option ChunkRec)
    (w : SSEWrite) (hw : w ∈ chunkWrites model co) : isDataWrite w = true := by
  rw [chunkWrites_eq_expected] at hw
  obtain ⟨t, _, rfl⟩ := List.mem_map.mp hw
  rfl

theorem normParts_eq_flatMap (ps : List (Option OaPartIn)) :
    normParts ps = ps.flatMap partNorm := by
  induction ps with
  | nil => rfl
  | cons po rest ih =>
    cases po with
    | none => simp [normParts, partNorm, ih]
    | some p =>
      cases hp : p.type with
      | none => simp [normParts, partNorm, hp, ih]
      | some t =>
        by_cases ht : t = ""
        · simp [normParts, partNorm, hp, ht, ih]
        · simp [normParts, partNorm, hp, ht, ih]

theorem partNorm_nil_iff (po : Option OaPartIn) :
    partNorm po = [] ↔ wellFormedPart po = false := by
  cases po with
  | none => simp [partNorm, wellFormedPart]
  | some p =>
    cases hp : p.type with
    | none => simp [partNorm, wellFormedPart, hp]
    | some t =>
      by_cases ht : t = ""
      · subst ht
        simp [partNorm, wellFormedPart, hp]
      · cases hx : p.text with
        | none => simp [partNorm, wellFormedPart, hp, ht, hx]
        | some s => simp [partNorm, wellFormedPart, hp, ht, hx]

theorem normParts_nil_iff (ps : List (Option OaPartIn)) :
    normParts ps = [] ↔ ∀ po ∈ ps, wellFormedPart po = false := by
  rw [normParts_eq_flatMap]
  induction ps with
  | nil => simp
  | cons po rest ih =>
    simp [List.flatMap_cons, List.append_eq_nil, ih, partNorm_nil_iff]

/-- An accepted bearer header reconstructs exactly `"Bearer " ++ key`:
the split yields exactly two segments, `Bearer` and the key, and joining
them back with the separator recovers the header. -/
theorem validateApiKey_true_header (h key : String) (hkey : key ≠ "")
    (hv : validateApiKey (some h) (some key) = true) : h = "Bearer " ++ key := by
  have hv' : (if h = "" then false
      else
        (jsSplitChar ' ' h.toList).length == 2 &&
          (jsSplitChar ' ' h.toList).headD [] == "Bearer".toList &&
          (jsSplitChar ' ' h.toList).getD 1 [] == key.toList) = true := by
    simpa [validateApiKey, hkey] using hv
  by_cases hh : h = ""
  · rw [if_pos hh] at hv'
    exact absurd hv' (by simp)
  · rw [if_neg hh] at hv'
    simp only [Bool.and_eq_true, beq_iff_eq] at hv'
    obtain ⟨⟨hlen, hhead⟩, hkey2⟩ := hv'
    obtain ⟨a, b, hab⟩ := List.length_eq_two.mp hlen
    have hjoin := joinSep_jsSplitChar ' ' h.toList
    rw [hab] at hjoin hhead hkey2
    simp only [List.headD_cons, List.getD_cons_succ, List.getD_cons_zero] at hhead hkey2
    subst hhead
    subst hkey2
    apply String.ext
    have hjs : joinSep ' ' ["Bearer".toList, key.toList] =
        "Bearer".toList ++ ' ' :: key.toList := rfl
    rw [hjs] at hjoin
    have hba : ("Bearer " ++ key).data = "Bearer".toList ++ ' ' :: key.toList := by
      simp [String.data_append]
    rw [hba]
    exact hjoin.symm

/-! ## Claim theorems -/

theorem mapData_filter_done (model : String) (l : List String) :
    ((l.map (SSEWrite.data model)).filter isDoneWrite) = [] := by
  induction l with
  | nil => rfl
  | cons t rest ih => simp [isDoneWrite, ih]

theorem mapData_filter_error (model : String) (l : List String) :
    ((l.map (SSEWrite.data model)).filter isErrorWrite) = [] := by
  induction l with
  | nil => rfl
  | cons t rest ih => simp [isErrorWrite, ih]

/-- C5: for every backend reply object, the non-streaming translation
produces a completion with exactly one choice, of index 0, role
`"assistant"`, finish_reason `"stop"`, whose message content is the
in-order separator-free concatenation of the texts of exactly the parts
with type `"text"`; the model field defaults to `"opencode"` when the
reply omits it. -/
theorem nonstream_translation (freshId : String) (now : Nat) (resp : Reply) :
    toOaResponse freshId now resp =
      { id := freshId
        object := "chat.completion"
        created := now
        model := resp.model.getD "opencode"
        choices := [{ index := 0
                      message := { role := "assistant"
                                   content := textConcatSpec resp.parts }
                      finish_reason := some "stop" }] } ∧
    ∀ ps : List RespPart,
      (toOaResponse freshId now { parts := ps, model := none }).model = "opencode" := by
  refine ⟨?_, fun ps => rfl⟩
  simp [toOaResponse, concatText_eq_spec]

/-- C6: for every finite chunk sequence that ends without error, the
stream translator writes exactly one `chat.completion.chunk` frame per
part with type `"text"` and non-empty text, carrying that part's text as
the entire delta content, in chunk order then part order (skipped parts
contribute nothing and are not merged), followed by the `[DONE]`
sentinel. -/
theorem stream_frames_in_order (model : String) (cs : List (Option ChunkRec)) :
    streamingWrites (StreamBackend.iter cs none) model =
      (expectedDeltas cs).map (SSEWrite.data model) ++ [SSEWrite.done] := by
  simp [streamingWrites, flatMap_chunkWrites]

/-- C2 (code bug witness): the argument object the handler passes to
`client.session.message` carries no abort signal on either path, so the
deadline timer's `abortController.abort()` cannot cancel the in-flight
backend call. -/
theorem backend_call_not_cancellable (parsed : ChatRequest) :
    (streamingMessageArgs parsed).signal = none ∧
    (nonStreamingMessageArgs parsed).signal = none :=
  ⟨rfl, rfl⟩

/-- C4: for every backend stream behaviour, the SSE write sequence ends
with the `[DONE]` sentinel, writes that sentinel exactly once, and writes
exactly one in-band error frame when a failure was raised while obtaining
or consuming the sequence and none otherwise. -/
theorem sse_terminal_sentinel (sb : StreamBackend) (model : String) :
    ((streamingWrites sb model).filter isDoneWrite).length = 1 ∧
    (streamingWrites sb model).getLast? = some SSEWrite.done ∧
    ((streamingWrites sb model).filter isErrorWrite).length =
      (if sbFails sb then 1 else 0) := by
  cases sb with
  | fail e =>
    refine ⟨?_, ?_, ?_⟩ <;>
      simp [streamingWrites, errWrite, isDoneWrite, isErrorWrite, sbFails]
  | oneshot m =>
    by_cases ht : concatText (match m with | some r => r.parts | none => []) = "" <;>
      refine ⟨?_, ?_, ?_⟩ <;>
        simp [streamingWrites, ht, isDoneWrite, isErrorWrite, sbFails]
  | iter cs err =>
    simp only [streamingWrites, flatMap_chunkWrites]
    cases err with
    | none =>
      refine ⟨?_, ?_, ?_⟩
      · simp [List.filter_append, mapData_filter_done, isDoneWrite]
      · simp
      · simp [List.filter_append, mapData_filter_error, isErrorWrite, sbFails]
    | some e =>
      refine ⟨?_, ?_, ?_⟩
      · simp [List.filter_append, mapData_filter_done, isDoneWrite, errWrite]
      · simp [errWrite]
      · simp [List.filter_append, mapData_filter_error, isErrorWrite, errWrite, sbFails]

/-- C3: for every failure thrown by the backend message call on the
non-streaming path, a message containing the substring `"timeout"` is
answered with 504 and type `"provider_error"`, any other message with 500
and type `"server_error"`. -/
theorem nonstream_error_classification (freshId : String) (now : Nat)
    (b : OaBody) (sb : StreamBackend) (e : String) (hs : b.stream = false) :
    ((∃ p q, e.toList = p ++ "timeout".toList ++ q) →
      chatCompletions freshId now (ReqBody.json b) (NonStreamBackend.msgFail e) sb =
        ChatResponse.json 504 (JsonOut.error ⟨e, "provider_error", none, none⟩)) ∧
    ((¬ ∃ p q, e.toList = p ++ "timeout".toList ++ q) →
      chatCompletions freshId now (ReqBody.json b) (NonStreamBackend.msgFail e) sb =
        ChatResponse.json 500 (JsonOut.error ⟨e, "server_error", none, none⟩)) := by
  constructor
  · intro h
    have hinc : strIncludes e "timeout" = true := (strIncludes_iff e "timeout").mpr h
    simp [chatCompletions, fromOaRequest, hs, hinc, createErrorResponse]
  · intro h
    have hinc : strIncludes e "timeout" = false := by
      cases hcase : strIncludes e "timeout" with
      | false => rfl
      | true => exact absurd ((strIncludes_iff e "timeout").mp hcase) h
    simp [chatCompletions, fromOaRequest, hs, hinc, createErrorResponse]

/-- Witness for C3 at concrete error messages on both branches. -/
theorem nonstream_error_classification_witness :
    chatCompletions "id0" 0 (ReqBody.json emptyOaBody)
        (NonStreamBackend.msgFail "upstream timeout after 60000ms")
        (StreamBackend.oneshot none) =
      ChatResponse.json 504
        (JsonOut.error ⟨"upstream timeout after 60000ms", "provider_error", none, none⟩) ∧
    chatCompletions "id0" 0 (ReqBody.json emptyOaBody)
        (NonStreamBackend.msgFail "boom")
        (StreamBackend.oneshot none) =
      ChatResponse.json 500 (JsonOut.error ⟨"boom", "server_error", none, none⟩) :=
  ⟨(nonstream_error_classification "id0" 0 emptyOaBody (StreamBackend.oneshot none)
      "upstream timeout after 60000ms" rfl).1
      ⟨"upstream ".toList, " after 60000ms".toList, by decide⟩,
   (nonstream_error_classification "id0" 0 emptyOaBody (StreamBackend.oneshot none)
      "boom" rfl).2
      (fun h => absurd ((strIncludes_iff "boom" "timeout").mpr h) (by decide))⟩

/-- C7: with a key configured, every request outside `/openapi.json` whose
Authorization header is absent or differs from the exact string
`"Bearer <key>"` is rejected with 401 and type `"authentication_error"`;
with no key configured, every request passes the gate. -/
theorem auth_gate :
    (∀ (path : String) (h : Option String),
      authMiddleware path h none = GateResult.pass) ∧
    (∀ (key path : String) (h : Option String), key ≠ "" →
      path ≠ "/openapi.json" →
      (∀ s, h = some s → s ≠ "Bearer " ++ key) →
      authMiddleware path h (some key) =
        GateResult.reject 401 ⟨"Unauthorized", "authentication_error", none, none⟩) := by
  constructor
  · intro path h
    by_cases hp : path = "/openapi.json" <;> simp [authMiddleware, validateApiKey, hp]
  · intro key path h hkey hpath hh
    have hv : validateApiKey h (some key) = false := by
      cases h with
      | none => simp [validateApiKey, hkey]
      | some s =>
        cases hcase : validateApiKey (some s) (some key) with
        | false => rfl
        | true => exact absurd (validateApiKey_true_header s key hkey hcase) (hh s rfl)
    simp [authMiddleware, hpath, hv, createErrorResponse]

/-- Witness for C7: a wrong bearer token is rejected with 401. -/
theorem auth_gate_witness :
    authMiddleware "/v1/models" (some "Bearer wrong") (some "secret-key") =
      GateResult.reject 401 ⟨"Unauthorized", "authentication_error", none, none⟩ :=
  auth_gate.2 "secret-key" "/v1/models" (some "Bearer wrong") (by decide) (by decide)
    (fun s hs => by
      injection hs with hs2
      rw [← hs2]
      decide)

/-- C8: a system-role message whose content is the empty string (or not a
string at all) contributes zero normalized messages: the surrounding list
normalizes exactly as if the message were absent. -/
theorem empty_system_dropped (pre post : List (Option OaMsgIn))
    (tc : Option (List String)) (tid : Option String) (c : ContentIn)
    (hc : keepsSystemContent c = false) :
    normMessages (pre ++ (some ⟨some "system", c, tc, tid⟩) :: post) =
      normMessages (pre ++ post) := by
  have hm : normMsg (some ⟨some "system", c, tc, tid⟩) = [] := by
    cases c with
    | str s =>
      have hlen : ¬ 0 < s.length := by simpa [keepsSystemContent] using hc
      simp [normMsg, hlen]
    | arr ps => rfl
    | other => rfl
  simp [normMessages, List.flatMap_append, List.flatMap_cons, hm]

/-- Witness for C8: an empty-string system message normalizes to nothing. -/
theorem empty_system_dropped_witness :
    normMessages [some ⟨some "system", ContentIn.str "", none, none⟩] =
      normMessages [] :=
  empty_system_dropped [] [] none none (ContentIn.str "") rfl

/-- C10: for a user message with array content, if no element is a
well-formed part the whole message is dropped (and no user message with
an empty parts array is ever produced); if exactly one normalized part
survives and it is a text part, the content collapses to that part's
plain string. -/
theorem user_array_normalization (ps : List (Option OaPartIn))
    (tc : Option (List String)) (tid : Option String) :
    (normParts ps = [] ↔ ∀ po ∈ ps, wellFormedPart po = false) ∧
    (normParts ps = [] →
      normMsg (some ⟨some "user", ContentIn.arr ps, tc, tid⟩) = []) ∧
    (∀ t, normParts ps = [NormPart.text t] →
      normMsg (some ⟨some "user", ContentIn.arr ps, tc, tid⟩) =
        [NormMsg.user (NormContent.str t)]) ∧
    normMsg (some ⟨some "user", ContentIn.arr ps, tc, tid⟩) ≠
      [NormMsg.user (NormContent.parts [])] := by
  refine ⟨normParts_nil_iff ps, ?_, ?_, ?_⟩
  · intro h
    simp [normMsg, h]
  · intro t h
    simp [normMsg, h]
  · cases hnp : normParts ps with
    | nil => simp [normMsg, hnp]
    | cons a rest =>
      cases a with
      | text t =>
        cases rest with
        | nil => simp [normMsg, hnp]
        | cons b rest2 => simp [normMsg, hnp]
      | image u => simp [normMsg, hnp]

/-- Witness for C10: a lone malformed element drops the message; a single
well-formed text part collapses to its string. -/
theorem user_array_normalization_witness :
    normMsg (some ⟨some "user", ContentIn.arr [none], none, none⟩) = [] ∧
    normMsg (some ⟨some "user",
        ContentIn.arr [some ⟨some "text", some "hi", none⟩], none, none⟩) =
      [NormMsg.user (NormContent.str "hi")] :=
  ⟨(user_array_normalization [none] none none).2.1 (by decide),
   (user_array_normalization [some ⟨some "text", some "hi", none⟩] none none).2.2.1
     "hi" (by decide)⟩

/-- C1 counterexample: with a request body that is not valid JSON and a
backend that replies normally, the handler answers 200 with a completion,
not 400 with an `invalid_request_error` envelope. -/
theorem invalid_json_counterexample :
    chatCompletions "id0" 0 ReqBody.invalidJson
        (NonStreamBackend.ok ⟨[⟨some "text", some "hello"⟩], none⟩)
        (StreamBackend.oneshot none) =
      ChatResponse.json 200 (JsonOut.completion
        ⟨"id0", "chat.completion", 0, "opencode",
         [⟨0, ⟨"assistant", "hello"⟩, some "stop"⟩]⟩) ∧
    (statusOf (chatCompletions "id0" 0 ReqBody.invalidJson
        (NonStreamBackend.ok ⟨[⟨some "text", some "hello"⟩], none⟩)
        (StreamBackend.oneshot none)) == some 400) = false := by
  constructor
  · decide
  · decide

/-- C1 (amended): a request body that fails JSON parsing is replaced by
the empty object and processed as a normal request — identically to a
request whose body is `{}` — so with a successful backend it yields 200,
never the 400 `invalid_request_error` path. -/
theorem invalid_json_as_empty_object (freshId : String) (now : Nat)
    (nsb : NonStreamBackend) (sb : StreamBackend) :
    chatCompletions freshId now ReqBody.invalidJson nsb sb =
      chatCompletions freshId now (ReqBody.json emptyOaBody) nsb sb ∧
    ∀ r : Reply,
      statusOf (chatCompletions freshId now ReqBody.invalidJson
        (NonStreamBackend.ok r) sb) = some 200 :=
  ⟨rfl, fun r => rfl⟩

/-- C9 counterexample: a streaming request whose backend degrades to a
one-shot reply with no text parts produces zero chunk frames before
`[DONE]`, not exactly one. -/
theorem stream_fallback_empty_counterexample :
    streamingWrites (StreamBackend.oneshot (some ⟨[], none⟩)) "opencode" =
      [SSEWrite.done] ∧
    ((streamingWrites (StreamBackend.oneshot (some ⟨[], none⟩))
        "opencode").filter isDataWrite).length = 0 :=
  ⟨rfl, rfl⟩

/-- C9 (amended): on the one-shot fallback the handler synthesizes exactly
one chunk carrying the concatenated text of the reply's text parts when
that concatenation is non-empty, followed by `[DONE]`; when the
concatenation is empty (or the reply is falsy) no chunk frame is written
and only `[DONE]` is sent. -/
theorem stream_fallback_chunk (model : String) (r : Reply)
    (h : concatText r.parts ≠ "") :
    streamingWrites (StreamBackend.oneshot (some r)) model =
      [SSEWrite.data model (concatText r.parts), SSEWrite.done] ∧
    (∀ r2 : Reply, concatText r2.parts = "" →
      streamingWrites (StreamBackend.oneshot (some r2)) model = [SSEWrite.done]) ∧
    streamingWrites (StreamBackend.oneshot none) model = [SSEWrite.done] := by
  refine ⟨?_, ?_, rfl⟩
  · simp [streamingWrites, h]
  · intro r2 h2
    simp [streamingWrites, h2]

/-- Witness for C9 (amended) at a one-part reply. -/
theorem stream_fallback_chunk_witness :
    streamingWrites (StreamBackend.oneshot
        (some ⟨[⟨some "text", some "Hi"⟩], none⟩)) "opencode" =
      [SSEWrite.data "opencode" "Hi", SSEWrite.done] :=
  (stream_fallback_chunk "opencode" ⟨[⟨some "text", some "Hi"⟩], none⟩ (by decide)).1
